import Mathlib

/-!
# Lasertown: buildings, blocks and the laser-interaction contract

A shallow embedding of `src/building.js`.

* JavaScript numbers that carry heights and world coordinates are rationals
  (`ℚ`); grid coordinates and array indices are integers.
* `Building.handleLaser` is modelled twice. `Building.handleLaser` reads the two
  subtractions of the source as exact; `Building.handleLaser64` rounds each of
  them as IEEE 754 double precision does (`Float64.sub`), which is what the
  interpreter executes. The two agree whenever both differences are doubles
  (`handleLaser64_eq_handleLaser_of_exact`) and differ where a difference rounds.
* Objects mutated in place become values: an operation returns the new state.
* A call that would raise a `TypeError` (indexing past the block array and
  then calling a method on `undefined`) is `none`.
* The rendering layer (meshes, materials, scene registration) is left out; of a
  block's scene object only `object.position` is kept, since `update` writes it.
-/

namespace Lasertown

/-! ## Collaborators declared outside `building.js` -/

/-- Modelled from the spec: the constant table `Laser.Direction`, which is declared
outside `building.js`. The spec lists four horizontal axis-aligned directions. -/
inductive Laser.Direction
  | POSITIVE_X
  | NEGATIVE_X
  | POSITIVE_Z
  | NEGATIVE_Z
  deriving DecidableEq, Repr

/-- Modelled from the spec: the value type `LaserSegmentLocation`, which is declared
outside `building.js`: origin grid cell, height and travel direction. -/
structure LaserSegmentLocation where
  originX : ℤ
  originZ : ℤ
  y : ℚ
  direction : Laser.Direction
  deriving DecidableEq, Repr

/-- Modelled from the spec: the result protocol of `handleLaser`, the constant table
`Laser.Handling` (declared outside `building.js`) together with the case in which a
new `LaserSegmentLocation` object is returned. -/
inductive Laser.Handling
  | STOP
  | CONTINUE
  | INFINITY
  | newSegment (loc : LaserSegmentLocation)
  deriving DecidableEq, Repr

/-- Modelled from the spec: `new LaserSegmentLocation({originX, originZ, y})` as
`MirrorBlock.handleLaser` calls it. The constructor is declared outside `building.js`;
the three given fields are stored and `direction`, which is not given, takes the
constructor's own default, received here as `defaultDirection`. -/
def LaserSegmentLocation.create (defaultDirection : Laser.Direction)
    (originX originZ : ℤ) (y : ℚ) : LaserSegmentLocation :=
  { originX := originX, originZ := originZ, y := y, direction := defaultDirection }

/-- Modelled from the spec: `objectUtil.initWithDefaults` for one key (the helper is
declared outside `building.js`): the option's value when the key is present, the
default otherwise. -/
def initWithDefaults {α : Type} (dflt : α) (option : Option α) : α :=
  option.getD dflt

/-- The two functions of the level service that `BuildingBlock.update` calls;
the level is declared outside `building.js`, so it is a parameter. -/
structure Level where
  gridXToWorld : ℤ → ℚ
  gridZToWorld : ℤ → ℚ

/-! ## Data model -/

/-- The field `object.position` of a block's scene object (a fresh `THREE.Object3D`
sits at the origin). -/
structure Position where
  x : ℚ
  y : ℚ
  z : ℚ
  deriving DecidableEq, Repr

/-- The four block constructors of `building.js`, as named in a block specification. -/
inductive BlockConstructor
  | StopBlock
  | GoalBlock
  | HoleBlock
  | MirrorBlock
  deriving DecidableEq, Repr

/-- The variant of a constructed block with the flag its constructor stored. -/
inductive BlockKind
  | StopBlock
  | GoalBlock
  | HoleBlock (holeDirection : Bool)
  | MirrorBlock (mirrorDirection : Bool)
  deriving DecidableEq, Repr

/-- One entry of `blocksSpec`: the constructor and the keys that are copied into the
block's options and read by the block constructors. -/
structure BlockSpec where
  blockConstructor : BlockConstructor
  topY : Option ℚ
  holeDirection : Option Bool
  mirrorDirection : Option Bool
  deriving DecidableEq, Repr

/-- A constructed block. Its `building` back-reference is the building that
constructed it; operations that read it receive that building as an argument. -/
structure BuildingBlock where
  kind : BlockKind
  topY : ℚ
  position : Position
  stationary : Bool
  deriving DecidableEq, Repr

/-- The options object handed to `initBuilding` (and to `GoalBuilding`). -/
structure BuildingOptions where
  gridX : Option ℤ
  gridZ : Option ℤ
  topY : Option ℚ
  blocksSpec : Option (List BlockSpec)
  deriving DecidableEq, Repr

/-- A building: a stack of blocks at one grid cell, index 0 on top. -/
structure Building where
  gridX : ℤ
  gridZ : ℤ
  topY : ℚ
  blocksSpec : List BlockSpec
  blocks : List BuildingBlock
  stationary : Bool
  deriving DecidableEq, Repr

/-! ## Construction -/

/-- `BuildingBlock.prototype.initBuildingBlock`: `topY` defaults to 2, the scene
object is created, `stationary` is set. -/
def BuildingBlock.initBuildingBlock (kind : BlockKind) (options : BlockSpec) : BuildingBlock :=
  { kind := kind
    topY := initWithDefaults 2 options.topY
    position := { x := 0, y := 0, z := 0 }
    stationary := true }

/-- `new spec.blockConstructor(options)`: each constructor stores its own flag (default
`true`) and then runs `initBuildingBlock`. -/
def BlockSpec.construct (spec : BlockSpec) : BuildingBlock :=
  match spec.blockConstructor with
  | .StopBlock => BuildingBlock.initBuildingBlock .StopBlock spec
  | .GoalBlock => BuildingBlock.initBuildingBlock .GoalBlock spec
  | .HoleBlock =>
      BuildingBlock.initBuildingBlock (.HoleBlock (initWithDefaults true spec.holeDirection)) spec
  | .MirrorBlock =>
      BuildingBlock.initBuildingBlock (.MirrorBlock (initWithDefaults true spec.mirrorDirection)) spec

/-- `Building.prototype.initBuilding`. -/
def Building.initBuilding (options : BuildingOptions) : Building :=
  let blocksSpec := initWithDefaults [] options.blocksSpec
  { gridX := initWithDefaults 0 options.gridX
    gridZ := initWithDefaults 0 options.gridZ
    topY := initWithDefaults 2 options.topY
    blocksSpec := blocksSpec
    blocks := blocksSpec.map BlockSpec.construct
    stationary := false }

/-- The block specification that the `GoalBuilding` constructor writes into its options. -/
def GoalBuilding.blocksSpec : List BlockSpec :=
  [ { blockConstructor := .GoalBlock, topY := none, holeDirection := none, mirrorDirection := none },
    { blockConstructor := .StopBlock, topY := none, holeDirection := none, mirrorDirection := none } ]

/-- The `GoalBuilding` constructor: overwrite `options.blocksSpec`, run `initBuilding`,
then set `stationary`. -/
def GoalBuilding (options : BuildingOptions) : Building :=
  let options := { options with blocksSpec := some GoalBuilding.blocksSpec }
  { Building.initBuilding options with stationary := true }

/-! ## Per-frame update -/

/-- `BuildingBlock.prototype.update`: recompute the scene object's position. -/
def BuildingBlock.update (level : Level) (building : Building) (blk : BuildingBlock)
    (_deltaTime : ℚ) : BuildingBlock :=
  { blk with
    position :=
      { x := level.gridXToWorld building.gridX
        y := blk.topY - 1 / 2
        z := level.gridZToWorld building.gridZ } }

/-- The loop of `Building.prototype.update`, from index `i` on. -/
def Building.updateLoop (level : Level) (b : Building) (deltaTime : ℚ) :
    ℕ → List BuildingBlock → List BuildingBlock
  | _, [] => []
  | i, blk :: rest =>
      BuildingBlock.update level b { blk with topY := b.topY - (i : ℚ) } deltaTime
        :: Building.updateLoop level b deltaTime (i + 1) rest

/-- `Building.prototype.update`. -/
def Building.update (level : Level) (b : Building) (deltaTime : ℚ) : Building :=
  { b with blocks := Building.updateLoop level b deltaTime 0 b.blocks }

/-! ## Laser handling -/

/-- `StopBlock.prototype.handleLaser`. -/
def StopBlock.handleLaser (_laserSegmentLoc : LaserSegmentLocation) : Laser.Handling :=
  .STOP

/-- `GoalBlock.prototype.handleLaser`. -/
def GoalBlock.handleLaser (_laserSegmentLoc : LaserSegmentLocation) : Laser.Handling :=
  .INFINITY

/-- `HoleBlock.prototype.handleLaser`. -/
def HoleBlock.handleLaser (holeDirection : Bool) (laserSegmentLoc : LaserSegmentLocation) :
    Laser.Handling :=
  let zLaser : Bool :=
    decide (laserSegmentLoc.direction = .POSITIVE_Z) || decide (laserSegmentLoc.direction = .NEGATIVE_Z)
  if holeDirection then
    if zLaser then .STOP else .CONTINUE
  else
    if zLaser then .CONTINUE else .STOP

/-- `MirrorBlock.prototype.handleLaser`; `building` is the block's `building` field. -/
def MirrorBlock.handleLaser (defaultDirection : Laser.Direction) (mirrorDirection : Bool)
    (building : Building) (laserSegmentLoc : LaserSegmentLocation) : Laser.Handling :=
  let newLoc := LaserSegmentLocation.create defaultDirection building.gridX building.gridZ
    laserSegmentLoc.y
  if mirrorDirection then
    if laserSegmentLoc.direction = .POSITIVE_Z then
      .newSegment { newLoc with direction := .POSITIVE_X }
    else if laserSegmentLoc.direction = .POSITIVE_X then
      .newSegment { newLoc with direction := .POSITIVE_Z }
    else if laserSegmentLoc.direction = .NEGATIVE_Z then
      .newSegment { newLoc with direction := .NEGATIVE_X }
    else if laserSegmentLoc.direction = .NEGATIVE_X then
      .newSegment { newLoc with direction := .NEGATIVE_Z }
    else .newSegment newLoc
  else
    if laserSegmentLoc.direction = .POSITIVE_Z then
      .newSegment { newLoc with direction := .NEGATIVE_X }
    else if laserSegmentLoc.direction = .POSITIVE_X then
      .newSegment { newLoc with direction := .NEGATIVE_Z }
    else if laserSegmentLoc.direction = .NEGATIVE_Z then
      .newSegment { newLoc with direction := .POSITIVE_X }
    else if laserSegmentLoc.direction = .NEGATIVE_X then
      .newSegment { newLoc with direction := .POSITIVE_Z }
    else .newSegment newLoc

/-- The `handleLaser` method of a block, dispatched on its variant. -/
def BuildingBlock.handleLaser (defaultDirection : Laser.Direction) (building : Building)
    (blk : BuildingBlock) (laserSegmentLoc : LaserSegmentLocation) : Laser.Handling :=
  match blk.kind with
  | .StopBlock => StopBlock.handleLaser laserSegmentLoc
  | .GoalBlock => GoalBlock.handleLaser laserSegmentLoc
  | .HoleBlock holeDirection => HoleBlock.handleLaser holeDirection laserSegmentLoc
  | .MirrorBlock mirrorDirection =>
      MirrorBlock.handleLaser defaultDirection mirrorDirection building laserSegmentLoc

/-- JavaScript array read `blocks[k]` at an integer `k`: `none` is `undefined`. -/
def arrayGet {α : Type} (blocks : List α) (k : ℤ) : Option α :=
  if 0 ≤ k then blocks[k.toNat]? else none

/-- The index `Math.floor(this.topY - laserSegmentLoc.y)` that `Building.handleLaser`
reads in its second branch, with the subtraction read as exact (no rounding); see
`Building.delegateIndex64` for the index in double precision. -/
def Building.blockIndex (b : Building) (laserSegmentLoc : LaserSegmentLocation) : ℤ :=
  let yFromTop := b.topY - laserSegmentLoc.y
  ⌊yFromTop⌋

/-- `Building.prototype.handleLaser`, with its two subtractions read as exact (no
rounding); `Building.handleLaser64` is the same method in double precision. The result
is `none` when the block read is `undefined`, where the method call raises a
`TypeError`. -/
def Building.handleLaser (defaultDirection : Laser.Direction) (b : Building)
    (laserSegmentLoc : LaserSegmentLocation) : Option Laser.Handling :=
  if laserSegmentLoc.y ≥ b.topY ∨ laserSegmentLoc.y ≤ b.topY - (b.blocks.length : ℚ) then
    some .CONTINUE
  else
    (arrayGet b.blocks (Building.blockIndex b laserSegmentLoc)).map
      (fun blk => BuildingBlock.handleLaser defaultDirection b blk laserSegmentLoc)

/-- The block index to which `Building.prototype.handleLaser` forwards the segment:
`none` in its first branch, where `CONTINUE` is returned and no block is read, and
`Math.floor(yFromTop)` in its second branch; the subtractions are read as exact. -/
def Building.delegateIndex (b : Building) (laserSegmentLoc : LaserSegmentLocation) : Option ℤ :=
  if laserSegmentLoc.y ≥ b.topY ∨ laserSegmentLoc.y ≤ b.topY - (b.blocks.length : ℚ) then
    none
  else
    some (Building.blockIndex b laserSegmentLoc)

/-- The loop of `Building.prototype.ownsSceneObject`, from index `i` on. The blocks'
own `ownsSceneObject` method is inherited from `ThreeSceneObject`, which is declared
outside `building.js`; it is the parameter `blockOwns`, applied to the index and the
block (the index stands for the identity of the block object). -/
def Building.ownsSceneObjectLoop {SceneObject : Type}
    (blockOwns : ℕ → BuildingBlock → SceneObject → Bool) (object : SceneObject) :
    ℕ → List BuildingBlock → Bool
  | _, [] => false
  | i, blk :: rest =>
      if blockOwns i blk object then true
      else Building.ownsSceneObjectLoop blockOwns object (i + 1) rest

/-- `Building.prototype.ownsSceneObject`. -/
def Building.ownsSceneObject {SceneObject : Type}
    (blockOwns : ℕ → BuildingBlock → SceneObject → Bool) (b : Building) (object : SceneObject) :
    Bool :=
  Building.ownsSceneObjectLoop blockOwns object 0 b.blocks

/-! ## Laser handling in double precision

JavaScript numbers are IEEE 754 binary64 values and `a - b` is the exact difference
rounded to the nearest double, a tie going to the double with the even significand.
Finite doubles are the rationals `m * 2 ^ k` with `|m| < 2 ^ 53`, `-1074 ≤ k` and
magnitude below `2 ^ 1024`. -/

/-- The result of a double-precision operation on finite operands. -/
inductive Float64.Value
  | finite (value : ℚ)
  | posInfinity
  | negInfinity
  deriving DecidableEq, Repr

/-- The integer nearest to `t`, a tie going to the even neighbour. -/
def Float64.roundTiesToEven (t : ℚ) : ℤ :=
  let f := ⌊t⌋
  if t - f < 1 / 2 then f
  else if 1 / 2 < t - f then f + 1
  else if f % 2 = 0 then f
  else f + 1

/-- The binary exponent `e` of a nonzero `x`, with `2 ^ e ≤ |x| < 2 ^ (e + 1)`, and
never below `-1022`, the exponent of the subnormal range. -/
def Float64.exponent (x : ℚ) : ℤ :=
  max (Int.log 2 |x|) (-1022)

/-- Rounding of an exact result to double precision (round to nearest, ties to even):
the doubles around `x` are the multiples of `2 ^ (e - 52)`; a rounded magnitude of
`2 ^ 1024` or more is an infinity. -/
def Float64.round (x : ℚ) : Float64.Value :=
  if x = 0 then .finite 0
  else
    let quantum : ℚ := 2 ^ (Float64.exponent x - 52)
    let r : ℚ := (Float64.roundTiesToEven (x / quantum) : ℚ) * quantum
    if 2 ^ 1024 ≤ r then .posInfinity
    else if r ≤ -(2 ^ 1024) then .negInfinity
    else .finite r

/-- The JavaScript subtraction `a - b` of two finite numbers. -/
def Float64.sub (a b : ℚ) : Float64.Value :=
  Float64.round (a - b)

/-- The JavaScript comparison `y <= v` of a finite `y` with a computed number `v`. -/
def Float64.le (y : ℚ) : Float64.Value → Bool
  | .finite value => decide (y ≤ value)
  | .posInfinity => true
  | .negInfinity => false

/-- `Math.floor(v)` used as an array index: the integer below a finite `v`; an infinity
stays an infinity, which is the index of no array element (`none`). -/
def Float64.floorIndex : Float64.Value → Option ℤ
  | .finite value => some ⌊value⌋
  | .posInfinity => none
  | .negInfinity => none

/-- `Building.prototype.handleLaser` in double precision: both subtractions round. The
result is `none` when the block read is `undefined`, where the method call raises a
`TypeError`. -/
def Building.handleLaser64 (defaultDirection : Laser.Direction) (b : Building)
    (laserSegmentLoc : LaserSegmentLocation) : Option Laser.Handling :=
  if laserSegmentLoc.y ≥ b.topY ∨
      Float64.le laserSegmentLoc.y (Float64.sub b.topY (b.blocks.length : ℚ)) = true then
    some .CONTINUE
  else
    let yFromTop := Float64.sub b.topY laserSegmentLoc.y
    match Float64.floorIndex yFromTop with
    | some k =>
        (arrayGet b.blocks k).map
          (fun blk => BuildingBlock.handleLaser defaultDirection b blk laserSegmentLoc)
    | none => none

/-- The integer index that `Building.prototype.handleLaser` reads in double precision:
`none` in its first branch, where `CONTINUE` is returned and no block is read (and for
an infinite `yFromTop`, which indexes nothing), `Math.floor(yFromTop)` in its second. -/
def Building.delegateIndex64 (b : Building) (laserSegmentLoc : LaserSegmentLocation) : Option ℤ :=
  if laserSegmentLoc.y ≥ b.topY ∨
      Float64.le laserSegmentLoc.y (Float64.sub b.topY (b.blocks.length : ℚ)) = true then
    none
  else
    Float64.floorIndex (Float64.sub b.topY laserSegmentLoc.y)

/-! ## Notions used to state the properties -/

/-- Whether a direction runs along the Z axis: the test `zLaser` of
`HoleBlock.prototype.handleLaser`. Two directions lie along the same axis when this
test agrees on them. -/
def Laser.Direction.zLaser (d : Laser.Direction) : Bool :=
  decide (d = .POSITIVE_Z) || decide (d = .NEGATIVE_Z)

/-- The reverse of a direction: same axis, opposite sign. -/
def Laser.Direction.opposite : Laser.Direction → Laser.Direction
  | .POSITIVE_X => .NEGATIVE_X
  | .NEGATIVE_X => .POSITIVE_X
  | .POSITIVE_Z => .NEGATIVE_Z
  | .NEGATIVE_Z => .POSITIVE_Z

/-- The stack invariant of the spec: the block at index `i` has `topY` equal to the
building's `topY - i`. -/
def Building.stackInvariant (b : Building) : Prop :=
  ∀ (i : ℕ) (h : i < b.blocks.length), (b.blocks.get ⟨i, h⟩).topY = b.topY - (i : ℚ)

instance Building.stackInvariant.instDecidable (b : Building) : Decidable (Building.stackInvariant b) := by
  unfold Building.stackInvariant
  infer_instance

/-! ## Concrete inputs used to instantiate the theorems -/

/-- The goal building of the spec's end-to-end scenario: cell `(2, 2)`, `topY = 2`. -/
def exampleGoalBuilding : Building :=
  GoalBuilding { gridX := some 2, gridZ := some 2, topY := some 2, blocksSpec := none }

/-- A building with an empty block list. -/
def exampleEmptyBuilding : Building :=
  Building.initBuilding { gridX := some 1, gridZ := some 3, topY := some 2, blocksSpec := none }

/-- A segment from cell `(0, 2)` travelling along `+X` at height `y`. -/
def exampleSegment (y : ℚ) : LaserSegmentLocation :=
  { originX := 0, originZ := 2, y := y, direction := .POSITIVE_X }

/-- A level whose grid cells are two world units wide. -/
def exampleLevel : Level :=
  { gridXToWorld := fun x => 2 * (x : ℚ), gridZToWorld := fun z => 2 * (z : ℚ) }

/-- A building initialised from the two-entry specification `[GoalBlock, StopBlock]`
with every other option left to its default (so `topY = 2`). -/
def exampleFreshBuilding : Building :=
  Building.initBuilding
    { gridX := none, gridZ := none, topY := none, blocksSpec := some GoalBuilding.blocksSpec }

/-- A segment from cell `(0, 2)` at height `3/2` travelling in direction `d`. -/
def exampleSegmentTowards (d : Laser.Direction) : LaserSegmentLocation :=
  { originX := 0, originZ := 2, y := 3 / 2, direction := d }

/-- A scene-ownership test under which only the block at index 1 owns the object `7`. -/
def exampleBlockOwns : ℕ → BuildingBlock → ℕ → Bool :=
  fun i _ object => decide (i = 1) && decide (object = 7)

/-- A building made of a single stop block, with `topY = 2`. -/
def exampleStopBuilding : Building :=
  Building.initBuilding
    { gridX := some 0, gridZ := some 0, topY := some 2,
      blocksSpec := some [ { blockConstructor := .StopBlock, topY := none, holeDirection := none,
                             mirrorDirection := none } ] }

/-- The height `2 ^ (-60)`, a double just above the ground level `0`. -/
def exampleTinyHeight : ℚ :=
  1 / 2 ^ 60

/-- The stack `[StopBlock, StopBlock, GoalBlock]` with `topY = 2`: the goal block is
the lowest one, below the ground level `0`. -/
def exampleTowerBuilding : Building :=
  Building.initBuilding
    { gridX := some 0, gridZ := some 0, topY := some 2,
      blocksSpec := some
        [ { blockConstructor := .StopBlock, topY := none, holeDirection := none,
            mirrorDirection := none },
          { blockConstructor := .StopBlock, topY := none, holeDirection := none,
            mirrorDirection := none },
          { blockConstructor := .GoalBlock, topY := none, holeDirection := none,
            mirrorDirection := none } ] }

/-! ## Auxiliary lemmas -/

theorem arrayGet_eq_getElem {α : Type} (blocks : List α) (k : ℤ) (h0 : 0 ≤ k)
    (hk : k < (blocks.length : ℤ)) :
    ∃ blk, arrayGet blocks k = some blk ∧ blocks[k.toNat]? = some blk := by
  have hlt : k.toNat < blocks.length := by omega
  refine ⟨blocks[k.toNat], ?_, ?_⟩
  · simp [arrayGet, h0, List.getElem?_eq_getElem hlt]
  · exact List.getElem?_eq_getElem hlt

theorem floor_index_bounds (topY y : ℚ) (n : ℕ) (hlow : topY - (n : ℚ) < y) (hhigh : y < topY) :
    0 ≤ ⌊topY - y⌋ ∧ ⌊topY - y⌋ < (n : ℤ) := by
  constructor
  · exact Int.floor_nonneg.mpr (by linarith)
  · rw [Int.floor_lt]
    push_cast
    linarith

theorem updateLoop_length (level : Level) (b : Building) (deltaTime : ℚ) (blocks : List BuildingBlock) :
    ∀ i : ℕ, (Building.updateLoop level b deltaTime i blocks).length = blocks.length := by
  induction blocks with
  | nil => intro i; rfl
  | cons blk rest ih => intro i; simp [Building.updateLoop, ih]

theorem updateLoop_getElem? (level : Level) (b : Building) (deltaTime : ℚ)
    (blocks : List BuildingBlock) :
    ∀ (i j : ℕ) (blk : BuildingBlock), blocks[j]? = some blk →
      (Building.updateLoop level b deltaTime i blocks)[j]? =
        some (BuildingBlock.update level b { blk with topY := b.topY - ((i + j : ℕ) : ℚ) } deltaTime) := by
  induction blocks with
  | nil => intro i j blk h; simp at h
  | cons hd rest ih =>
    intro i j blk h
    cases j with
    | zero =>
      simp at h
      subst h
      simp [Building.updateLoop]
    | succ j =>
      simp at h
      have := ih (i + 1) j blk h
      simp only [Building.updateLoop, List.getElem?_cons_succ, this]
      congr 4
      push_cast
      ring

theorem updateLoop_idem (level : Level) (b b2 : Building) (dt1 dt2 : ℚ)
    (hY : b2.topY = b.topY) (hX : b2.gridX = b.gridX) (hZ : b2.gridZ = b.gridZ)
    (blocks : List BuildingBlock) :
    ∀ i : ℕ, Building.updateLoop level b2 dt2 i (Building.updateLoop level b dt1 i blocks) =
      Building.updateLoop level b dt1 i blocks := by
  induction blocks with
  | nil => intro i; rfl
  | cons blk rest ih =>
    intro i
    simp [Building.updateLoop, BuildingBlock.update, ih, hY, hX, hZ]

/-! ## In-range and out-of-range heights -/

/-- C2: for every building and every segment whose height `y` satisfies `y >= topY` or
`y <= topY - blockCount`, `Building.handleLaser` returns `CONTINUE`, whatever the blocks
and whatever the segment's direction and origin. -/
theorem handleLaser_outside_stack (defaultDirection : Laser.Direction) (b : Building)
    (seg : LaserSegmentLocation)
    (hout : seg.y ≥ b.topY ∨ seg.y ≤ b.topY - (b.blocks.length : ℚ)) :
    Building.handleLaser defaultDirection b seg = some .CONTINUE := by
  simp only [Building.handleLaser, if_pos hout]

/-- Instance of C2: the goal building with `topY = 2` and a segment at height `3`. -/
theorem handleLaser_outside_stack_witness :
    ((exampleSegment 3).y ≥ exampleGoalBuilding.topY ∨
      (exampleSegment 3).y ≤ exampleGoalBuilding.topY - (exampleGoalBuilding.blocks.length : ℚ)) ∧
    Building.handleLaser .POSITIVE_Z exampleGoalBuilding (exampleSegment 3) = some .CONTINUE :=
  have hout : (exampleSegment 3).y ≥ exampleGoalBuilding.topY ∨
      (exampleSegment 3).y ≤ exampleGoalBuilding.topY - (exampleGoalBuilding.blocks.length : ℚ) := by
    left
    norm_num [exampleGoalBuilding, exampleSegment, GoalBuilding, Building.initBuilding,
      initWithDefaults]
  ⟨hout, handleLaser_outside_stack .POSITIVE_Z exampleGoalBuilding (exampleSegment 3) hout⟩

/-! ## The block variants -/

/-- C3: for every mirror block and every incoming segment with one of the four
directions, `MirrorBlock.handleLaser` returns a new segment whose origin is the owning
building's `gridX`/`gridZ`, whose `y` is the incoming `y`, and whose direction follows
the table: `mirrorDirection = true`: +Z to +X, +X to +Z, -Z to -X, -X to -Z;
`mirrorDirection = false`: +Z to -X, +X to -Z, -Z to +X, -X to +Z. -/
theorem mirrorBlock_handleLaser_table (defaultDirection : Laser.Direction) (building : Building)
    (originX originZ : ℤ) (y : ℚ) :
    (MirrorBlock.handleLaser defaultDirection true building
        { originX := originX, originZ := originZ, y := y, direction := .POSITIVE_Z } =
      .newSegment { originX := building.gridX, originZ := building.gridZ, y := y,
                    direction := .POSITIVE_X }) ∧
    (MirrorBlock.handleLaser defaultDirection true building
        { originX := originX, originZ := originZ, y := y, direction := .POSITIVE_X } =
      .newSegment { originX := building.gridX, originZ := building.gridZ, y := y,
                    direction := .POSITIVE_Z }) ∧
    (MirrorBlock.handleLaser defaultDirection true building
        { originX := originX, originZ := originZ, y := y, direction := .NEGATIVE_Z } =
      .newSegment { originX := building.gridX, originZ := building.gridZ, y := y,
                    direction := .NEGATIVE_X }) ∧
    (MirrorBlock.handleLaser defaultDirection true building
        { originX := originX, originZ := originZ, y := y, direction := .NEGATIVE_X } =
      .newSegment { originX := building.gridX, originZ := building.gridZ, y := y,
                    direction := .NEGATIVE_Z }) ∧
    (MirrorBlock.handleLaser defaultDirection false building
        { originX := originX, originZ := originZ, y := y, direction := .POSITIVE_Z } =
      .newSegment { originX := building.gridX, originZ := building.gridZ, y := y,
                    direction := .NEGATIVE_X }) ∧
    (MirrorBlock.handleLaser defaultDirection false building
        { originX := originX, originZ := originZ, y := y, direction := .POSITIVE_X } =
      .newSegment { originX := building.gridX, originZ := building.gridZ, y := y,
                    direction := .NEGATIVE_Z }) ∧
    (MirrorBlock.handleLaser defaultDirection false building
        { originX := originX, originZ := originZ, y := y, direction := .NEGATIVE_Z } =
      .newSegment { originX := building.gridX, originZ := building.gridZ, y := y,
                    direction := .POSITIVE_X }) ∧
    (MirrorBlock.handleLaser defaultDirection false building
        { originX := originX, originZ := originZ, y := y, direction := .NEGATIVE_X } =
      .newSegment { originX := building.gridX, originZ := building.gridZ, y := y,
                    direction := .POSITIVE_Z }) := by
  simp [MirrorBlock.handleLaser, LaserSegmentLocation.create]

/-- C4: for every hole block and every segment: with `holeDirection = true` a segment
travelling along Z (+Z or -Z) yields `STOP` and one travelling along X (+X or -X) yields
`CONTINUE`; with `holeDirection = false` the two results are swapped; the result does
not depend on the segment's origin or height. -/
theorem holeBlock_handleLaser_table (originX originZ : ℤ) (y : ℚ) :
    HoleBlock.handleLaser true
        { originX := originX, originZ := originZ, y := y, direction := .POSITIVE_Z } = .STOP ∧
    HoleBlock.handleLaser true
        { originX := originX, originZ := originZ, y := y, direction := .NEGATIVE_Z } = .STOP ∧
    HoleBlock.handleLaser true
        { originX := originX, originZ := originZ, y := y, direction := .POSITIVE_X } = .CONTINUE ∧
    HoleBlock.handleLaser true
        { originX := originX, originZ := originZ, y := y, direction := .NEGATIVE_X } = .CONTINUE ∧
    HoleBlock.handleLaser false
        { originX := originX, originZ := originZ, y := y, direction := .POSITIVE_Z } = .CONTINUE ∧
    HoleBlock.handleLaser false
        { originX := originX, originZ := originZ, y := y, direction := .NEGATIVE_Z } = .CONTINUE ∧
    HoleBlock.handleLaser false
        { originX := originX, originZ := originZ, y := y, direction := .POSITIVE_X } = .STOP ∧
    HoleBlock.handleLaser false
        { originX := originX, originZ := originZ, y := y, direction := .NEGATIVE_X } = .STOP := by
  simp [HoleBlock.handleLaser]

/-- C5: `StopBlock.handleLaser` returns `STOP` and `GoalBlock.handleLaser` returns
`INFINITY` for every segment, whatever its direction, origin and height; the same holds
when the call is dispatched from a block of that variant. -/
theorem stopBlock_goalBlock_handleLaser (defaultDirection : Laser.Direction) (building : Building)
    (topY : ℚ) (position : Position) (stationary : Bool) (seg : LaserSegmentLocation) :
    StopBlock.handleLaser seg = .STOP ∧
    GoalBlock.handleLaser seg = .INFINITY ∧
    BuildingBlock.handleLaser defaultDirection building
        { kind := .StopBlock, topY := topY, position := position, stationary := stationary } seg =
      .STOP ∧
    BuildingBlock.handleLaser defaultDirection building
        { kind := .GoalBlock, topY := topY, position := position, stationary := stationary } seg =
      .INFINITY :=
  ⟨rfl, rfl, rfl, rfl⟩

/-! ## The goal building -/

theorem goalBuilding_blocks_eq (options : BuildingOptions) :
    (GoalBuilding options).blocks =
      [ { kind := .GoalBlock, topY := 2, position := { x := 0, y := 0, z := 0 }, stationary := true },
        { kind := .StopBlock, topY := 2, position := { x := 0, y := 0, z := 0 }, stationary := true } ] := by
  simp [GoalBuilding, Building.initBuilding, GoalBuilding.blocksSpec, initWithDefaults,
    BlockSpec.construct, BuildingBlock.initBuildingBlock]

theorem goalBuilding_handleLaser_eq (defaultDirection : Laser.Direction) (options : BuildingOptions)
    (seg : LaserSegmentLocation) :
    Building.handleLaser defaultDirection (GoalBuilding options) seg =
      if seg.y ≥ (GoalBuilding options).topY ∨ seg.y ≤ (GoalBuilding options).topY - 2 then
        some .CONTINUE
      else if (GoalBuilding options).topY - 1 < seg.y then some .INFINITY
      else some .STOP := by
  have hblocks := goalBuilding_blocks_eq options
  have hlen : (((GoalBuilding options).blocks.length : ℕ) : ℚ) = 2 := by
    rw [hblocks]; norm_num
  by_cases hout : seg.y ≥ (GoalBuilding options).topY ∨ seg.y ≤ (GoalBuilding options).topY - 2
  · rw [if_pos hout]
    exact handleLaser_outside_stack defaultDirection _ seg (by rw [hlen]; exact hout)
  · rw [if_neg hout]
    have hcond : ¬ (seg.y ≥ (GoalBuilding options).topY ∨
        seg.y ≤ (GoalBuilding options).topY - (((GoalBuilding options).blocks.length : ℕ) : ℚ)) := by
      rw [hlen]; exact hout
    push_neg at hout
    obtain ⟨h1, h2⟩ := hout
    by_cases htop : (GoalBuilding options).topY - 1 < seg.y
    · have hfloor : ⌊(GoalBuilding options).topY - seg.y⌋ = 0 := by
        rw [Int.floor_eq_iff]
        constructor
        · push_cast; linarith
        · push_cast; linarith
      rw [if_pos htop]
      rw [Building.handleLaser, if_neg hcond]
      simp [Building.blockIndex, hfloor, hblocks, arrayGet, BuildingBlock.handleLaser,
        GoalBlock.handleLaser]
    · have hfloor : ⌊(GoalBuilding options).topY - seg.y⌋ = 1 := by
        rw [Int.floor_eq_iff]
        constructor
        · push_cast; linarith
        · push_cast; linarith
      rw [if_neg htop]
      rw [Building.handleLaser, if_neg hcond]
      simp [Building.blockIndex, hfloor, hblocks, arrayGet, BuildingBlock.handleLaser,
        StopBlock.handleLaser]

/-- C10: a goal building constructed from any options has exactly two blocks, a
`GoalBlock` at index 0 and a `StopBlock` at index 1, whatever `blocksSpec` the options
carry, and its `stationary` flag is true, whereas `initBuilding` alone leaves
`stationary` false. -/
theorem goalBuilding_two_blocks_stationary (options : BuildingOptions) :
    (GoalBuilding options).blocks.length = 2 ∧
    (GoalBuilding options).blocks.map BuildingBlock.kind = [BlockKind.GoalBlock, BlockKind.StopBlock] ∧
    (GoalBuilding options).stationary = true ∧
    (Building.initBuilding options).stationary = false := by
  refine ⟨?_, ?_, rfl, rfl⟩
  · rw [goalBuilding_blocks_eq]; rfl
  · rw [goalBuilding_blocks_eq]; rfl

/-! ## The per-frame update -/

/-- C7: after `Building.update`, for every block index `i` in `[0, blockCount)` the
block's `topY` equals the building's `topY - i`, whatever the blocks' `topY` values were
before and whatever `deltaTime` is; the block count, the building's `topY` and each
block's variant are unchanged. -/
theorem update_sets_block_topY (level : Level) (b : Building) (deltaTime : ℚ) (i : ℕ)
    (hi : i < b.blocks.length) :
    (Building.update level b deltaTime).topY = b.topY ∧
    (Building.update level b deltaTime).blocks.length = b.blocks.length ∧
    ∃ old blk, b.blocks[i]? = some old ∧
      (Building.update level b deltaTime).blocks[i]? = some blk ∧
      blk.kind = old.kind ∧
      blk.topY = (Building.update level b deltaTime).topY - (i : ℚ) := by
  have hold : b.blocks[i]? = some b.blocks[i] := List.getElem?_eq_getElem hi
  have hnew := updateLoop_getElem? level b deltaTime b.blocks 0 i b.blocks[i] hold
  refine ⟨rfl, updateLoop_length level b deltaTime b.blocks 0, b.blocks[i], _, hold, hnew, rfl, ?_⟩
  simp [BuildingBlock.update, Building.update]

/-- Instance of C7: the goal building, whose two blocks both start with `topY = 2`,
at index 1. -/
theorem update_sets_block_topY_witness :
    1 < exampleGoalBuilding.blocks.length ∧
    ((Building.update exampleLevel exampleGoalBuilding 0).topY = exampleGoalBuilding.topY ∧
      (Building.update exampleLevel exampleGoalBuilding 0).blocks.length =
        exampleGoalBuilding.blocks.length ∧
      ∃ old blk, exampleGoalBuilding.blocks[1]? = some old ∧
        (Building.update exampleLevel exampleGoalBuilding 0).blocks[1]? = some blk ∧
        blk.kind = old.kind ∧
        blk.topY = (Building.update exampleLevel exampleGoalBuilding 0).topY - ((1 : ℕ) : ℚ)) :=
  have hi : 1 < exampleGoalBuilding.blocks.length := by
    simp [exampleGoalBuilding, goalBuilding_blocks_eq]
  ⟨hi, update_sets_block_topY exampleLevel exampleGoalBuilding 0 1 hi⟩

/-- C8: `Building.update` is idempotent: calling it twice in a row (with `deltaTime = 0`,
and in fact with any two values) leaves the whole building state, every block's `topY`
included, equal to the state after the first call. -/
theorem update_idempotent (level : Level) (b : Building) :
    Building.update level (Building.update level b 0) 0 = Building.update level b 0 ∧
    ∀ dt1 dt2 : ℚ,
      Building.update level (Building.update level b dt1) dt2 = Building.update level b dt1 := by
  have key : ∀ dt1 dt2 : ℚ,
      Building.update level (Building.update level b dt1) dt2 = Building.update level b dt1 := by
    intro dt1 dt2
    have h := updateLoop_idem level b (Building.update level b dt1) dt1 dt2 rfl rfl rfl b.blocks 0
    simp only [Building.update] at h ⊢
    rw [h]
  exact ⟨key 0 0, key⟩

/-! ## The empty building -/

/-- C9: a building whose block list is empty returns `CONTINUE` from `handleLaser` for
every segment height and every `topY`: the out-of-range test `y >= topY` or
`y <= topY - 0` holds at every height, so the block array is not read and no error is
raised. -/
theorem handleLaser_empty_building (defaultDirection : Laser.Direction) (b : Building)
    (seg : LaserSegmentLocation) (hempty : b.blocks = []) :
    (seg.y ≥ b.topY ∨ seg.y ≤ b.topY - (b.blocks.length : ℚ)) ∧
    Building.handleLaser defaultDirection b seg = some .CONTINUE := by
  have hout : seg.y ≥ b.topY ∨ seg.y ≤ b.topY - (b.blocks.length : ℚ) := by
    rw [hempty]
    simp only [List.length_nil, Nat.cast_zero, sub_zero]
    exact le_total b.topY seg.y
  exact ⟨hout, by simp only [Building.handleLaser, if_pos hout]⟩

/-- Instance of C9: a building initialised without a block specification, and a
segment at height `1`. -/
theorem handleLaser_empty_building_witness :
    exampleEmptyBuilding.blocks = [] ∧
    (((exampleSegment 1).y ≥ exampleEmptyBuilding.topY ∨
        (exampleSegment 1).y ≤ exampleEmptyBuilding.topY - (exampleEmptyBuilding.blocks.length : ℚ)) ∧
      Building.handleLaser .POSITIVE_X exampleEmptyBuilding (exampleSegment 1) = some .CONTINUE) :=
  have hempty : exampleEmptyBuilding.blocks = [] := by
    simp [exampleEmptyBuilding, Building.initBuilding, initWithDefaults]
  ⟨hempty, handleLaser_empty_building .POSITIVE_X exampleEmptyBuilding (exampleSegment 1) hempty⟩

/-! ## Which block a segment is forwarded to -/

theorem handleLaser_eq_of_delegateIndex (defaultDirection : Laser.Direction) (b : Building)
    (seg : LaserSegmentLocation) :
    Building.handleLaser defaultDirection b seg =
      match Building.delegateIndex b seg with
      | none => some .CONTINUE
      | some k => (arrayGet b.blocks k).map
          (fun blk => BuildingBlock.handleLaser defaultDirection b blk seg) := by
  unfold Building.handleLaser Building.delegateIndex
  split_ifs <;> rfl

theorem delegateIndex_eq_some_iff (b : Building) (seg : LaserSegmentLocation) (i : ℕ)
    (hi : i < b.blocks.length) :
    Building.delegateIndex b seg = some (i : ℤ) ↔
      b.topY - (i : ℚ) - 1 < seg.y ∧ seg.y ≤ b.topY - (i : ℚ) ∧ seg.y < b.topY := by
  have hiq : ((i : ℚ) + 1) ≤ (b.blocks.length : ℚ) := by exact_mod_cast hi
  unfold Building.delegateIndex Building.blockIndex
  split_ifs with hcond
  · simp only [reduceCtorEq, false_iff, not_and, not_lt]
    intro h1 h2
    rcases hcond with h | h
    · exact h
    · linarith
  · push_neg at hcond
    simp only [Option.some.injEq]
    rw [Int.floor_eq_iff]
    push_cast
    constructor
    · rintro ⟨h1, h2⟩
      exact ⟨by linarith, by linarith, hcond.1⟩
    · rintro ⟨h1, h2, _⟩
      exact ⟨by linarith, by linarith⟩

theorem arrayGet_natCast {α : Type} (blocks : List α) (i : ℕ) (hi : i < blocks.length) :
    arrayGet blocks (i : ℤ) = some (blocks.get ⟨i, hi⟩) := by
  simp [arrayGet, List.getElem?_eq_getElem hi]

/-- C11 as stated fails: for the goal building with `topY = 2`, the height `y = 1` lies
in the half-open range `[topY - 0 - 1, topY - 0)` of block 0, yet the segment is
forwarded to block 1 (the stop block, result `STOP`) and not to block 0. -/
theorem handleLaser_half_open_slot_counterexample :
    (exampleGoalBuilding.topY - ((0 : ℕ) : ℚ) - 1 ≤ (exampleSegment 1).y ∧
      (exampleSegment 1).y < exampleGoalBuilding.topY - ((0 : ℕ) : ℚ)) ∧
    Building.delegateIndex exampleGoalBuilding (exampleSegment 1) = some 1 ∧
    Building.handleLaser .POSITIVE_X exampleGoalBuilding (exampleSegment 1) = some .STOP ∧
    ¬ (Building.delegateIndex exampleGoalBuilding (exampleSegment 1) = some ((0 : ℕ) : ℤ) ↔
        exampleGoalBuilding.topY - ((0 : ℕ) : ℚ) - 1 ≤ (exampleSegment 1).y ∧
          (exampleSegment 1).y < exampleGoalBuilding.topY - ((0 : ℕ) : ℚ)) := by
  have htop : exampleGoalBuilding.topY = 2 := by
    simp [exampleGoalBuilding, GoalBuilding, Building.initBuilding, initWithDefaults]
  have hy : (exampleSegment 1).y = 1 := rfl
  have hlen : exampleGoalBuilding.blocks.length = 2 := by
    simp [exampleGoalBuilding, goalBuilding_blocks_eq]
  have hrange : exampleGoalBuilding.topY - ((0 : ℕ) : ℚ) - 1 ≤ (exampleSegment 1).y ∧
      (exampleSegment 1).y < exampleGoalBuilding.topY - ((0 : ℕ) : ℚ) := by
    rw [htop, hy]; norm_num
  have hdel : Building.delegateIndex exampleGoalBuilding (exampleSegment 1) = some 1 := by
    have h := (delegateIndex_eq_some_iff exampleGoalBuilding (exampleSegment 1) 1
      (by rw [hlen]; norm_num)).mpr (by rw [htop, hy]; norm_num)
    simpa using h
  refine ⟨hrange, hdel, ?_, ?_⟩
  · have h := goalBuilding_handleLaser_eq .POSITIVE_X
      { gridX := some 2, gridZ := some 2, topY := some 2, blocksSpec := none } (exampleSegment 1)
    rw [show GoalBuilding { gridX := some 2, gridZ := some 2, topY := some 2, blocksSpec := none } =
      exampleGoalBuilding from rfl, htop, hy] at h
    rw [h]
    norm_num
  · rw [hdel]
    intro hiff
    have := hiff.mpr hrange
    simp at this

/-- C12: for every building and every height exactly on an interior slot boundary
(`topY - y = k` with `0 < k < blockCount`), `Building.handleLaser` forwards the segment to
block `k`, the block directly below the boundary (its top face is at `y`, its bottom
face at `y - 1`), and not to block `k - 1` above it. -/
theorem handleLaser_boundary_goes_below (defaultDirection : Laser.Direction) (b : Building)
    (seg : LaserSegmentLocation) (k : ℕ) (hk0 : 0 < k) (hkn : k < b.blocks.length)
    (hy : b.topY - seg.y = (k : ℚ)) :
    Building.delegateIndex b seg = some (k : ℤ) ∧
    Building.delegateIndex b seg ≠ some ((k : ℤ) - 1) ∧
    Building.handleLaser defaultDirection b seg =
      some (BuildingBlock.handleLaser defaultDirection b (b.blocks.get ⟨k, hkn⟩) seg) ∧
    (b.topY - (k : ℚ) = seg.y ∧ b.topY - (k : ℚ) - 1 = seg.y - 1) := by
  have hkq : (0 : ℚ) < (k : ℚ) := by exact_mod_cast hk0
  have hdel : Building.delegateIndex b seg = some (k : ℤ) :=
    (delegateIndex_eq_some_iff b seg k hkn).mpr ⟨by linarith, by linarith, by linarith⟩
  refine ⟨hdel, ?_, ?_, ⟨by linarith, by linarith⟩⟩
  · rw [hdel]
    intro h
    have h2 := Option.some.inj h
    omega
  · rw [handleLaser_eq_of_delegateIndex, hdel]
    simp only [arrayGet_natCast b.blocks k hkn, Option.map_some']

/-- Instance of C12: the goal building with `topY = 2`, the boundary height `y = 1`
and `k = 1`. -/
theorem handleLaser_boundary_goes_below_witness :
    ∃ hkn : 1 < exampleGoalBuilding.blocks.length,
      exampleGoalBuilding.topY - (exampleSegment 1).y = ((1 : ℕ) : ℚ) ∧
      (Building.delegateIndex exampleGoalBuilding (exampleSegment 1) = some ((1 : ℕ) : ℤ) ∧
        Building.delegateIndex exampleGoalBuilding (exampleSegment 1) ≠ some (((1 : ℕ) : ℤ) - 1) ∧
        Building.handleLaser .NEGATIVE_X exampleGoalBuilding (exampleSegment 1) =
          some (BuildingBlock.handleLaser .NEGATIVE_X exampleGoalBuilding
            (exampleGoalBuilding.blocks.get ⟨1, hkn⟩) (exampleSegment 1)) ∧
        (exampleGoalBuilding.topY - ((1 : ℕ) : ℚ) = (exampleSegment 1).y ∧
          exampleGoalBuilding.topY - ((1 : ℕ) : ℚ) - 1 = (exampleSegment 1).y - 1)) :=
  have hkn : 1 < exampleGoalBuilding.blocks.length := by
    simp [exampleGoalBuilding, goalBuilding_blocks_eq]
  have hy : exampleGoalBuilding.topY - (exampleSegment 1).y = ((1 : ℕ) : ℚ) := by
    norm_num [exampleGoalBuilding, exampleSegment, GoalBuilding, Building.initBuilding,
      initWithDefaults]
  ⟨hkn, hy, handleLaser_boundary_goes_below .NEGATIVE_X exampleGoalBuilding (exampleSegment 1) 1
    (by norm_num) hkn hy⟩

/-! ## Algebra of the mirror mapping -/

/-- C13: for each mirror orientation and each of the four directions `d`, applying the
mirror's direction mapping twice with the same orientation gives a direction along the
same axis as `d` (one application alone changes the axis). -/
theorem mirrorBlock_twice_same_axis (defaultDirection : Laser.Direction) (mirrorDirection : Bool)
    (building : Building) (seg : LaserSegmentLocation) :
    ∃ loc1 loc2,
      MirrorBlock.handleLaser defaultDirection mirrorDirection building seg = .newSegment loc1 ∧
      MirrorBlock.handleLaser defaultDirection mirrorDirection building loc1 = .newSegment loc2 ∧
      loc1.direction.zLaser ≠ seg.direction.zLaser ∧
      loc2.direction.zLaser = seg.direction.zLaser := by
  obtain ⟨originX, originZ, y, d⟩ := seg
  cases mirrorDirection <;> cases d <;>
    exact ⟨_, _, rfl, rfl, by simp [Laser.Direction.zLaser], by simp [Laser.Direction.zLaser]⟩

/-- C14, as amended: for each mirror orientation and each of the four directions `d`,
applying the mirror's direction mapping twice with the same orientation gives back the
original direction `d` itself (one application alone never does). -/
theorem mirrorBlock_twice_original_direction (defaultDirection : Laser.Direction)
    (mirrorDirection : Bool) (building : Building) (seg : LaserSegmentLocation) :
    ∃ loc1 loc2,
      MirrorBlock.handleLaser defaultDirection mirrorDirection building seg = .newSegment loc1 ∧
      MirrorBlock.handleLaser defaultDirection mirrorDirection building loc1 = .newSegment loc2 ∧
      loc1.direction ≠ seg.direction ∧
      loc2.direction = seg.direction := by
  obtain ⟨originX, originZ, y, d⟩ := seg
  cases mirrorDirection <;> cases d <;> exact ⟨_, _, rfl, rfl, by simp, rfl⟩

/-- C14 as stated fails: with `mirrorDirection = true`, a segment travelling `+Z` is
sent to `+X`, and the resulting segment is sent to `+Z` again, the original direction. -/
theorem mirrorBlock_twice_counterexample :
    ∃ loc1 loc2,
      MirrorBlock.handleLaser .NEGATIVE_X true exampleGoalBuilding
        (exampleSegmentTowards .POSITIVE_Z) = .newSegment loc1 ∧
      MirrorBlock.handleLaser .NEGATIVE_X true exampleGoalBuilding loc1 = .newSegment loc2 ∧
      loc1.direction = .POSITIVE_X ∧
      loc2.direction = .POSITIVE_Z ∧
      loc2.direction = (exampleSegmentTowards .POSITIVE_Z).direction :=
  ⟨_, _, rfl, rfl, rfl, rfl, rfl⟩

/-- C18: the two mirror orientations send every beam in opposite directions: for each
incoming direction, the direction produced with `mirrorDirection = false` is the reverse
(same axis, other sign) of the one produced with `mirrorDirection = true`; and passing
a direction through one orientation and then the other reverses it. -/
theorem mirrorBlock_orientations_opposite (defaultDirection : Laser.Direction)
    (building : Building) (seg : LaserSegmentLocation) :
    ∃ locT locF,
      MirrorBlock.handleLaser defaultDirection true building seg = .newSegment locT ∧
      MirrorBlock.handleLaser defaultDirection false building seg = .newSegment locF ∧
      locF.direction = locT.direction.opposite ∧
      locF.direction.zLaser = locT.direction.zLaser ∧
      locF.direction ≠ locT.direction ∧
      (∃ locTF, MirrorBlock.handleLaser defaultDirection false building locT = .newSegment locTF ∧
        locTF.direction = seg.direction.opposite) ∧
      (∃ locFT, MirrorBlock.handleLaser defaultDirection true building locF = .newSegment locFT ∧
        locFT.direction = seg.direction.opposite) := by
  obtain ⟨originX, originZ, y, d⟩ := seg
  cases d <;> exact ⟨_, _, rfl, rfl, rfl, rfl, by simp, ⟨_, rfl, rfl⟩, ⟨_, rfl, rfl⟩⟩

/-! ## The stack invariant -/

theorem update_stackInvariant (level : Level) (b : Building) (deltaTime : ℚ) :
    Building.stackInvariant (Building.update level b deltaTime) := by
  intro i h
  have hlen : i < b.blocks.length := by
    have := updateLoop_length level b deltaTime b.blocks 0
    simp only [Building.update] at h
    omega
  have hnew := updateLoop_getElem? level b deltaTime b.blocks 0 i (b.blocks.get ⟨i, hlen⟩)
    (List.getElem?_eq_getElem hlen)
  have hget : (Building.update level b deltaTime).blocks[i]? =
      some ((Building.update level b deltaTime).blocks.get ⟨i, h⟩) := List.getElem?_eq_getElem h
  simp only [Building.update] at hget hnew ⊢
  rw [hnew] at hget
  rw [← Option.some.inj hget]
  simp [BuildingBlock.update]

theorem construct_topY (spec : BlockSpec) :
    (BlockSpec.construct spec).topY = initWithDefaults 2 spec.topY := by
  unfold BlockSpec.construct
  cases spec.blockConstructor <;> rfl

/-- C15, as amended: the stack invariant `blocks[i].topY = topY - i` holds in every
state that `Building.update` returns, whatever the state before the call was (so `update`
establishes it after construction and preserves it); right after `initBuilding` each
block's `topY` is the value its specification entry carries, or 2 when it carries none,
whatever the building's `topY` and the block's index. In the embedding `handleLaser`
returns a result only and leaves the building as it is. -/
theorem update_establishes_stackInvariant (level : Level) (b : Building) (deltaTime : ℚ)
    (options : BuildingOptions) :
    Building.stackInvariant (Building.update level b deltaTime) ∧
    Building.stackInvariant (Building.update level (Building.update level b deltaTime) deltaTime) ∧
    Building.stackInvariant (Building.update level (Building.initBuilding options) deltaTime) ∧
    (Building.initBuilding options).blocks.map BuildingBlock.topY =
      (initWithDefaults [] options.blocksSpec).map (fun spec => initWithDefaults 2 spec.topY) := by
  refine ⟨update_stackInvariant level b deltaTime, update_stackInvariant level _ deltaTime,
    update_stackInvariant level _ deltaTime, ?_⟩
  simp only [Building.initBuilding, List.map_map]
  apply List.map_congr_left
  intro spec _
  exact construct_topY spec

/-- C15 as stated fails: right after `initBuilding` with the specification
`[GoalBlock, StopBlock]` and the default `topY = 2`, the block at index 1 has `topY = 2`
and not `topY - 1 = 1`, so the stack invariant does not hold. -/
theorem initBuilding_stackInvariant_counterexample :
    (∃ blk, exampleFreshBuilding.blocks[1]? = some blk ∧ blk.topY = 2 ∧
      exampleFreshBuilding.topY - ((1 : ℕ) : ℚ) = 1) ∧
    ¬ Building.stackInvariant exampleFreshBuilding := by
  have hblocks : exampleFreshBuilding.blocks =
      [ { kind := .GoalBlock, topY := 2, position := { x := 0, y := 0, z := 0 }, stationary := true },
        { kind := .StopBlock, topY := 2, position := { x := 0, y := 0, z := 0 }, stationary := true } ] := by
    simp [exampleFreshBuilding, Building.initBuilding, GoalBuilding.blocksSpec, initWithDefaults,
      BlockSpec.construct, BuildingBlock.initBuildingBlock]
  have htop : exampleFreshBuilding.topY = 2 := by
    simp [exampleFreshBuilding, Building.initBuilding, initWithDefaults]
  constructor
  · refine ⟨_, by rw [hblocks]; rfl, rfl, ?_⟩
    rw [htop]; norm_num
  · intro hinv
    have h1 : 1 < exampleFreshBuilding.blocks.length := by rw [hblocks]; simp
    have h := hinv 1 h1
    simp only [hblocks, htop, List.get_eq_getElem, List.getElem_cons_succ,
      List.getElem_cons_zero] at h
    norm_num at h

/-! ## What `handleLaser` reads -/

theorem blockHandleLaser_congr (defaultDirection : Laser.Direction) (b1 b2 : Building)
    (blk1 blk2 : BuildingBlock) (seg : LaserSegmentLocation)
    (hX : b1.gridX = b2.gridX) (hZ : b1.gridZ = b2.gridZ) (hkind : blk1.kind = blk2.kind) :
    BuildingBlock.handleLaser defaultDirection b1 blk1 seg =
      BuildingBlock.handleLaser defaultDirection b2 blk2 seg := by
  unfold BuildingBlock.handleLaser
  rw [hkind]
  cases blk2.kind <;> simp only [MirrorBlock.handleLaser, hX, hZ]

theorem handleLaser_congr_kinds (defaultDirection : Laser.Direction) (b1 b2 : Building)
    (seg : LaserSegmentLocation) (hY : b1.topY = b2.topY) (hX : b1.gridX = b2.gridX)
    (hZ : b1.gridZ = b2.gridZ)
    (hkinds : b1.blocks.map BuildingBlock.kind = b2.blocks.map BuildingBlock.kind) :
    Building.handleLaser defaultDirection b1 seg = Building.handleLaser defaultDirection b2 seg := by
  have hlen : b1.blocks.length = b2.blocks.length := by
    have := congrArg List.length hkinds
    simpa using this
  have hidx : ∀ n : ℕ, (b1.blocks[n]?).map BuildingBlock.kind = (b2.blocks[n]?).map BuildingBlock.kind := by
    intro n
    rw [← List.getElem?_map, ← List.getElem?_map, hkinds]
  unfold Building.handleLaser Building.blockIndex arrayGet
  rw [hY, hlen]
  split_ifs with hc h0
  · rfl
  · have := hidx (⌊b2.topY - seg.y⌋).toNat
    cases h1 : b1.blocks[(⌊b2.topY - seg.y⌋).toNat]? with
    | none =>
      cases h2 : b2.blocks[(⌊b2.topY - seg.y⌋).toNat]? with
      | none => rfl
      | some blk2 => rw [h1, h2] at this; simp at this
    | some blk1 =>
      cases h2 : b2.blocks[(⌊b2.topY - seg.y⌋).toNat]? with
      | none => rw [h1, h2] at this; simp at this
      | some blk2 =>
        rw [h1, h2] at this
        simp only [Option.map_some', Option.some.injEq] at this ⊢
        exact blockHandleLaser_congr defaultDirection b1 b2 blk1 blk2 seg hX hZ this
  · rfl

theorem updateLoop_kinds (level : Level) (b : Building) (deltaTime : ℚ)
    (blocks : List BuildingBlock) :
    ∀ i : ℕ, (Building.updateLoop level b deltaTime i blocks).map BuildingBlock.kind =
      blocks.map BuildingBlock.kind := by
  induction blocks with
  | nil => intro i; rfl
  | cons blk rest ih => intro i; simp [Building.updateLoop, BuildingBlock.update, ih]

theorem handleLaser_update_eq (defaultDirection : Laser.Direction) (level : Level) (b : Building)
    (deltaTime : ℚ) (seg : LaserSegmentLocation) :
    Building.handleLaser defaultDirection (Building.update level b deltaTime) seg =
      Building.handleLaser defaultDirection b seg :=
  handleLaser_congr_kinds defaultDirection _ b seg rfl rfl rfl
    (updateLoop_kinds level b deltaTime b.blocks 0)

/-- C16, as amended: the height-bucketing of `Building.handleLaser` does not read the
blocks' own `topY` fields; it reads the building's `topY` and the number of blocks. For
every building and segment `handleLaser` returns the same result before and after
`update`, and the same result whatever values the blocks' `topY` fields are replaced by. -/
theorem handleLaser_ignores_block_topY (defaultDirection : Laser.Direction) (level : Level)
    (b : Building) (deltaTime : ℚ) (seg : LaserSegmentLocation) (staleTopY : BuildingBlock → ℚ) :
    Building.handleLaser defaultDirection (Building.update level b deltaTime) seg =
      Building.handleLaser defaultDirection b seg ∧
    Building.delegateIndex (Building.update level b deltaTime) seg = Building.delegateIndex b seg ∧
    Building.handleLaser defaultDirection
        { b with blocks := b.blocks.map (fun blk => { blk with topY := staleTopY blk }) } seg =
      Building.handleLaser defaultDirection b seg := by
  refine ⟨handleLaser_update_eq defaultDirection level b deltaTime seg, ?_, ?_⟩
  · simp only [Building.delegateIndex, Building.blockIndex, Building.update,
      updateLoop_length level b deltaTime b.blocks 0]
  · refine handleLaser_congr_kinds defaultDirection
      { b with blocks := b.blocks.map (fun blk => { blk with topY := staleTopY blk }) } b seg
      rfl rfl rfl ?_
    simp only [List.map_map]
    apply List.map_congr_left
    intro blk _
    rfl

/-- C16 as stated fails: there is no building and segment for which `handleLaser`
returns one result before `update` and a different one after it. -/
theorem handleLaser_update_counterexample :
    ¬ ∃ (defaultDirection : Laser.Direction) (level : Level) (b : Building) (deltaTime : ℚ)
        (seg : LaserSegmentLocation),
      Building.handleLaser defaultDirection b seg ≠
        Building.handleLaser defaultDirection (Building.update level b deltaTime) seg := by
  rintro ⟨defaultDirection, level, b, deltaTime, seg, hne⟩
  exact hne (handleLaser_update_eq defaultDirection level b deltaTime seg).symm

/-! ## Scene ownership -/

theorem ownsSceneObjectLoop_iff {SceneObject : Type}
    (blockOwns : ℕ → BuildingBlock → SceneObject → Bool) (object : SceneObject)
    (blocks : List BuildingBlock) :
    ∀ i : ℕ, Building.ownsSceneObjectLoop blockOwns object i blocks = true ↔
      ∃ (j : ℕ) (blk : BuildingBlock), blocks[j]? = some blk ∧ blockOwns (i + j) blk object = true := by
  induction blocks with
  | nil => intro i; simp [Building.ownsSceneObjectLoop]
  | cons hd rest ih =>
    intro i
    unfold Building.ownsSceneObjectLoop
    by_cases hown : blockOwns i hd object = true
    · rw [if_pos hown]
      simp only [true_iff]
      exact ⟨0, hd, by simp, by simpa using hown⟩
    · rw [if_neg hown, ih (i + 1)]
      constructor
      · rintro ⟨j, blk, hj, hb⟩
        refine ⟨j + 1, blk, by simpa using hj, ?_⟩
        rw [show i + (j + 1) = i + 1 + j by omega]
        exact hb
      · rintro ⟨j, blk, hj, hb⟩
        cases j with
        | zero =>
          simp only [List.getElem?_cons_zero, Option.some.injEq] at hj
          subst hj
          exact absurd hb hown
        | succ j =>
          refine ⟨j, blk, by simpa using hj, ?_⟩
          rw [show i + 1 + j = i + (j + 1) by omega]
          exact hb

/-- C17: for every building and every scene object, `Building.ownsSceneObject` returns
true if and only if at least one block of the stack reports owning that object; for a
building with no blocks it returns false. -/
theorem ownsSceneObject_iff_some_block {SceneObject : Type}
    (blockOwns : ℕ → BuildingBlock → SceneObject → Bool) (b : Building) (object : SceneObject) :
    (Building.ownsSceneObject blockOwns b object = true ↔
      ∃ (i : ℕ) (blk : BuildingBlock), b.blocks[i]? = some blk ∧ blockOwns i blk object = true) ∧
    Building.ownsSceneObject blockOwns { b with blocks := [] } object = false := by
  refine ⟨?_, rfl⟩
  unfold Building.ownsSceneObject
  rw [ownsSceneObjectLoop_iff]
  simp only [Nat.zero_add]

/-! ## The win result -/

theorem blockHandleLaser_infinity_iff (defaultDirection : Laser.Direction) (building : Building)
    (blk : BuildingBlock) (seg : LaserSegmentLocation) :
    BuildingBlock.handleLaser defaultDirection building blk seg = .INFINITY ↔
      blk.kind = .GoalBlock := by
  unfold BuildingBlock.handleLaser
  cases hk : blk.kind with
  | StopBlock => simp [StopBlock.handleLaser]
  | GoalBlock => simp [GoalBlock.handleLaser]
  | HoleBlock holeDirection =>
    simp only [HoleBlock.handleLaser, reduceCtorEq, iff_false]
    split_ifs <;> simp
  | MirrorBlock mirrorDirection =>
    simp only [MirrorBlock.handleLaser, reduceCtorEq, iff_false]
    split_ifs <;> simp

/-! ## Double precision: evaluating the rounding -/

theorem Float64.roundTiesToEven_eq_of_near (t : ℚ) (m : ℤ) (h1 : (m : ℚ) - 1 / 2 < t)
    (h2 : t < (m : ℚ) + 1 / 2) : Float64.roundTiesToEven t = m := by
  unfold Float64.roundTiesToEven
  by_cases hge : (m : ℚ) ≤ t
  · have hf : ⌊t⌋ = m := by
      rw [Int.floor_eq_iff]
      exact ⟨hge, by linarith⟩
    simp only [hf]
    rw [if_pos (by linarith)]
  · push_neg at hge
    have hf : ⌊t⌋ = m - 1 := by
      rw [Int.floor_eq_iff]
      push_cast
      exact ⟨by linarith, by linarith⟩
    simp only [hf]
    push_cast
    rw [if_neg (by linarith), if_pos (by linarith)]
    ring

theorem Float64.exponent_eq_of_bounds (x : ℚ) (e : ℤ) (hlo : (2 : ℚ) ^ e ≤ |x|)
    (hhi : |x| < (2 : ℚ) ^ (e + 1)) (he : -1022 ≤ e) : Float64.exponent x = e := by
  have hpos : 0 < |x| := lt_of_lt_of_le (by positivity) hlo
  have h1 : e ≤ Int.log 2 |x| :=
    (Int.zpow_le_iff_le_log (by norm_num) hpos).mp (by exact_mod_cast hlo)
  have h2 : Int.log 2 |x| < e + 1 :=
    (Int.lt_zpow_iff_log_lt (by norm_num) hpos).mp (by exact_mod_cast hhi)
  unfold Float64.exponent
  have hlog : Int.log 2 |x| = e := by omega
  rw [hlog]
  exact max_eq_left he

theorem Float64.round_eq_of_bounds (x : ℚ) (e m : ℤ) (hlo : (2 : ℚ) ^ e ≤ |x|)
    (hhi : |x| < (2 : ℚ) ^ (e + 1)) (he : -1022 ≤ e)
    (h1 : (m : ℚ) - 1 / 2 < x / (2 : ℚ) ^ (e - 52))
    (h2 : x / (2 : ℚ) ^ (e - 52) < (m : ℚ) + 1 / 2)
    (hfin1 : (m : ℚ) * (2 : ℚ) ^ (e - 52) < 2 ^ 1024)
    (hfin2 : -(2 ^ 1024) < (m : ℚ) * (2 : ℚ) ^ (e - 52)) :
    Float64.round x = .finite ((m : ℚ) * (2 : ℚ) ^ (e - 52)) := by
  have hx : x ≠ 0 := by
    intro h
    rw [h, abs_zero] at hlo
    exact absurd hlo (not_le.mpr (by positivity))
  unfold Float64.round
  rw [if_neg hx]
  simp only [Float64.exponent_eq_of_bounds x e hlo hhi he,
    Float64.roundTiesToEven_eq_of_near _ m h1 h2]
  rw [if_neg (not_le.mpr hfin1), if_neg (not_le.mpr hfin2)]

theorem Float64.round_of_dyadic (m : ℤ) (k : ℕ) (hm : |m| < 2 ^ 53) (hk : k ≤ 1074) :
    Float64.round ((m : ℚ) / 2 ^ k) = .finite ((m : ℚ) / 2 ^ k) := by
  by_cases hm0 : m = 0
  · subst hm0
    simp [Float64.round]
  have hmq : |(m : ℚ)| < 2 ^ 53 := by exact_mod_cast hm
  have h2k : (0 : ℚ) < 2 ^ k := by positivity
  have hx : (m : ℚ) / 2 ^ k ≠ 0 := by
    apply div_ne_zero
    · exact_mod_cast hm0
    · exact ne_of_gt h2k
  have habs : |(m : ℚ) / 2 ^ k| = |(m : ℚ)| / 2 ^ k := by
    rw [abs_div, abs_of_pos h2k]
  have hxpos : 0 < |(m : ℚ) / 2 ^ k| := abs_pos.mpr hx
  have hlog : Int.log 2 |(m : ℚ) / 2 ^ k| < 53 - (k : ℤ) := by
    apply (Int.lt_zpow_iff_log_lt (by norm_num) hxpos).mp
    have hpow : (((2 : ℕ) : ℚ)) ^ (53 - (k : ℤ)) = 2 ^ 53 / 2 ^ k := by
      push_cast
      rw [zpow_sub₀ (by norm_num), zpow_natCast]
      norm_cast
    rw [habs, hpow]
    exact div_lt_div_of_pos_right hmq h2k
  have he : Float64.exponent ((m : ℚ) / 2 ^ k) ≤ 52 - (k : ℤ) := by
    unfold Float64.exponent
    apply max_le
    · omega
    · omega
  obtain ⟨n, hn⟩ : ∃ n : ℕ, (n : ℤ) = 52 - (k : ℤ) - Float64.exponent ((m : ℚ) / 2 ^ k) :=
    ⟨(52 - (k : ℤ) - Float64.exponent ((m : ℚ) / 2 ^ k)).toNat, by omega⟩
  have hq : (2 : ℚ) ^ (Float64.exponent ((m : ℚ) / 2 ^ k) - 52) = 1 / (2 ^ n * 2 ^ k) := by
    have hexp : Float64.exponent ((m : ℚ) / 2 ^ k) - 52 = -((n : ℤ) + (k : ℤ)) := by omega
    rw [hexp, zpow_neg, zpow_add₀ (by norm_num), zpow_natCast, zpow_natCast, one_div]
  have hdiv : (m : ℚ) / 2 ^ k / (2 : ℚ) ^ (Float64.exponent ((m : ℚ) / 2 ^ k) - 52) =
      ((m * 2 ^ n : ℤ) : ℚ) := by
    rw [hq]
    push_cast
    field_simp
    ring
  have hround : Float64.roundTiesToEven
      ((m : ℚ) / 2 ^ k / (2 : ℚ) ^ (Float64.exponent ((m : ℚ) / 2 ^ k) - 52)) = m * 2 ^ n := by
    rw [hdiv]
    exact Float64.roundTiesToEven_eq_of_near _ _ (by linarith) (by linarith)
  have hback : ((m * 2 ^ n : ℤ) : ℚ) * (2 : ℚ) ^ (Float64.exponent ((m : ℚ) / 2 ^ k) - 52) =
      (m : ℚ) / 2 ^ k := by
    rw [hq]
    push_cast
    field_simp
    ring
  have hbound : |(m : ℚ) / 2 ^ k| < 2 ^ 1024 := by
    rw [habs]
    calc |(m : ℚ)| / 2 ^ k ≤ |(m : ℚ)| := div_le_self (abs_nonneg _) (one_le_pow₀ (by norm_num))
      _ < 2 ^ 53 := hmq
      _ < 2 ^ 1024 := by norm_num
  obtain ⟨hb1, hb2⟩ := abs_lt.mp hbound
  unfold Float64.round
  rw [if_neg hx]
  simp only [hround, hback]
  rw [if_neg (not_le.mpr hb2), if_neg (not_le.mpr hb1)]

theorem Float64.sub_exact_of_dyadic (a b : ℚ) (m : ℤ) (k : ℕ) (h : a - b = (m : ℚ) / 2 ^ k)
    (hm : |m| < 2 ^ 53) (hk : k ≤ 1074) : Float64.sub a b = .finite (a - b) := by
  unfold Float64.sub
  rw [h]
  exact Float64.round_of_dyadic m k hm hk

theorem Float64.sub_two_tinyHeight : Float64.sub 2 exampleTinyHeight = .finite 2 := by
  have h := Float64.round_eq_of_bounds (2 - 1 / 2 ^ 60) 0 (2 ^ 53)
    (by rw [abs_of_pos (by norm_num)]; norm_num)
    (by rw [abs_of_pos (by norm_num)]; norm_num)
    (by norm_num) (by norm_num) (by norm_num) (by norm_num) (by norm_num)
  unfold Float64.sub exampleTinyHeight
  rw [h]
  norm_num

theorem Float64.sub_one_tinyHeight : Float64.sub 1 exampleTinyHeight = .finite 1 := by
  have h := Float64.round_eq_of_bounds (1 - 1 / 2 ^ 60) (-1) (2 ^ 53)
    (by rw [abs_of_pos (by norm_num)]; norm_num)
    (by rw [abs_of_pos (by norm_num)]; norm_num)
    (by norm_num) (by norm_num) (by norm_num) (by norm_num) (by norm_num)
  unfold Float64.sub exampleTinyHeight
  rw [h]
  norm_num

/-! ## Double precision: the two readings of `handleLaser` -/

theorem handleLaser64_eq_handleLaser_of_exact (defaultDirection : Laser.Direction) (b : Building)
    (seg : LaserSegmentLocation)
    (hy : Float64.sub b.topY seg.y = .finite (b.topY - seg.y))
    (hn : Float64.sub b.topY (b.blocks.length : ℚ) = .finite (b.topY - (b.blocks.length : ℚ))) :
    Building.handleLaser64 defaultDirection b seg = Building.handleLaser defaultDirection b seg ∧
    Building.delegateIndex64 b seg = Building.delegateIndex b seg := by
  unfold Building.handleLaser64 Building.handleLaser Building.delegateIndex64
    Building.delegateIndex Building.blockIndex
  rw [hy, hn]
  simp [Float64.le, Float64.floorIndex]

theorem delegateIndex64_eq_some_iff (b : Building) (seg : LaserSegmentLocation) (i : ℤ) :
    Building.delegateIndex64 b seg = some i ↔
      seg.y < b.topY ∧ Float64.le seg.y (Float64.sub b.topY (b.blocks.length : ℚ)) = false ∧
        ∃ d : ℚ, Float64.sub b.topY seg.y = .finite d ∧ (i : ℚ) ≤ d ∧ d < (i : ℚ) + 1 := by
  unfold Building.delegateIndex64
  split_ifs with hguard
  · simp only [reduceCtorEq, false_iff, not_and]
    intro h1 h2
    rcases hguard with h | h
    · exact absurd h1 (not_lt.mpr h)
    · rw [h] at h2
      exact absurd h2 (by simp)
  · push_neg at hguard
    obtain ⟨hlt, hle⟩ := hguard
    have hle2 : Float64.le seg.y (Float64.sub b.topY (b.blocks.length : ℚ)) = false := by
      simpa using hle
    cases hsub : Float64.sub b.topY seg.y with
    | finite d =>
      simp only [Float64.floorIndex, Option.some.injEq, Float64.Value.finite.injEq]
      rw [Int.floor_eq_iff]
      constructor
      · rintro ⟨h1, h2⟩
        exact ⟨hlt, hle2, d, rfl, h1, h2⟩
      · rintro ⟨_, _, d2, hd, h1, h2⟩
        rw [hd]
        exact ⟨h1, h2⟩
    | posInfinity =>
      simp only [Float64.floorIndex, reduceCtorEq, false_iff, not_and, not_exists]
      intro _ _ d hd
      exact absurd hd (by simp)
    | negInfinity =>
      simp only [Float64.floorIndex, reduceCtorEq, false_iff, not_and, not_exists]
      intro _ _ d hd
      exact absurd hd (by simp)

theorem handleLaser64_eq_of_delegateIndex64 (defaultDirection : Laser.Direction) (b : Building)
    (seg : LaserSegmentLocation) (k : ℤ) (hdel : Building.delegateIndex64 b seg = some k) :
    Building.handleLaser64 defaultDirection b seg =
      (arrayGet b.blocks k).map
        (fun blk => BuildingBlock.handleLaser defaultDirection b blk seg) := by
  unfold Building.delegateIndex64 at hdel
  unfold Building.handleLaser64
  split_ifs at hdel ⊢ with hguard
  simp only [hdel]

theorem goalBuilding_handleLaser64_of_index (defaultDirection : Laser.Direction)
    (options : BuildingOptions) (seg : LaserSegmentLocation) (k : ℤ) (d : ℚ)
    (hlt : seg.y < (GoalBuilding options).topY)
    (hle : Float64.le seg.y (Float64.sub (GoalBuilding options).topY ((2 : ℕ) : ℚ)) = false)
    (hd : Float64.sub (GoalBuilding options).topY seg.y = .finite d)
    (hk1 : (k : ℚ) ≤ d) (hk2 : d < (k : ℚ) + 1) :
    Building.delegateIndex64 (GoalBuilding options) seg = some k ∧
    Building.handleLaser64 defaultDirection (GoalBuilding options) seg =
      (arrayGet
        [ ({ kind := .GoalBlock, topY := 2, position := { x := 0, y := 0, z := 0 },
             stationary := true } : BuildingBlock),
          { kind := .StopBlock, topY := 2, position := { x := 0, y := 0, z := 0 },
            stationary := true } ] k).map
        (fun blk => BuildingBlock.handleLaser defaultDirection (GoalBuilding options) blk seg) := by
  have hlen : (GoalBuilding options).blocks.length = 2 := by
    rw [goalBuilding_blocks_eq]; rfl
  have hdel : Building.delegateIndex64 (GoalBuilding options) seg = some k := by
    rw [delegateIndex64_eq_some_iff, hlen]
    exact ⟨hlt, hle, d, hd, hk1, hk2⟩
  refine ⟨hdel, ?_⟩
  rw [handleLaser64_eq_of_delegateIndex64 defaultDirection _ seg k hdel, goalBuilding_blocks_eq]

/-- C1 does not hold of the code: for the goal building with `topY = 2` (two blocks) the
height `2 ^ (-60)` satisfies `topY - blockCount < y < topY` and the exact `floor(topY - y)`
is `1`, yet in double precision `topY - y` rounds to `2`, the index read is
`2 = blockCount`, no block is there and the call raises a `TypeError`. -/
theorem handleLaser64_reads_past_end (defaultDirection : Laser.Direction) :
    (exampleGoalBuilding.topY - (exampleGoalBuilding.blocks.length : ℚ) <
        (exampleSegment exampleTinyHeight).y ∧
      (exampleSegment exampleTinyHeight).y < exampleGoalBuilding.topY) ∧
    ⌊exampleGoalBuilding.topY - (exampleSegment exampleTinyHeight).y⌋ = 1 ∧
    Float64.sub exampleGoalBuilding.topY (exampleSegment exampleTinyHeight).y = .finite 2 ∧
    Building.delegateIndex64 exampleGoalBuilding (exampleSegment exampleTinyHeight) = some 2 ∧
    exampleGoalBuilding.blocks.length = 2 ∧
    arrayGet exampleGoalBuilding.blocks 2 = none ∧
    Building.handleLaser64 defaultDirection exampleGoalBuilding
      (exampleSegment exampleTinyHeight) = none := by
  have htop : exampleGoalBuilding.topY = 2 := rfl
  have hy : (exampleSegment exampleTinyHeight).y = exampleTinyHeight := rfl
  have hblocks := goalBuilding_blocks_eq
    { gridX := some 2, gridZ := some 2, topY := some 2, blocksSpec := none }
  have hlen : exampleGoalBuilding.blocks.length = 2 := by
    unfold exampleGoalBuilding; rw [hblocks]; rfl
  have htiny : exampleTinyHeight = 1 / 2 ^ 60 := rfl
  have hsub : Float64.sub exampleGoalBuilding.topY (exampleSegment exampleTinyHeight).y =
      .finite 2 := by
    rw [htop, hy]; exact Float64.sub_two_tinyHeight
  have hguard : Float64.le (exampleSegment exampleTinyHeight).y
      (Float64.sub (GoalBuilding
        { gridX := some 2, gridZ := some 2, topY := some 2, blocksSpec := none }).topY
        ((2 : ℕ) : ℚ)) = false := by
    have h0 : Float64.sub (2 : ℚ) ((2 : ℕ) : ℚ) = .finite 0 := by
      simp [Float64.sub, Float64.round]
    have htop2 : (GoalBuilding
        { gridX := some 2, gridZ := some 2, topY := some 2, blocksSpec := none }).topY = 2 := rfl
    rw [htop2, h0, hy, htiny]
    simp only [Float64.le, decide_eq_false_iff_not, not_le]
    norm_num
  obtain ⟨hdel, hres⟩ := goalBuilding_handleLaser64_of_index defaultDirection
    { gridX := some 2, gridZ := some 2, topY := some 2, blocksSpec := none }
    (exampleSegment exampleTinyHeight) 2 2
    (by rw [hy, htiny]; norm_num [GoalBuilding, Building.initBuilding, initWithDefaults])
    hguard hsub (by norm_num) (by norm_num)
  refine ⟨⟨?_, ?_⟩, ?_, hsub, hdel, hlen, ?_, ?_⟩
  · rw [htop, hlen, hy, htiny]; norm_num
  · rw [htop, hy, htiny]; norm_num
  · rw [htop, hy, htiny, Int.floor_eq_iff]; norm_num
  · unfold exampleGoalBuilding; rw [hblocks]; simp [arrayGet]
  · unfold exampleGoalBuilding
    rw [hres]
    simp [arrayGet]

/-- C6 does not hold of the code for every height: in double precision the goal
building with `topY = 2` raises a `TypeError` at the height `2 ^ (-60)`, which lies
strictly inside the lower slot, and the goal building with `topY = 1` returns `STOP` at
the same height, which lies strictly inside its top slot. The three heights of the
scenario behave as claimed: with `topY = 2`, `y = 1.5` gives `INFINITY`, `y = 0.5`
gives `STOP` and `y = 3.0` gives `CONTINUE`, for every direction and origin. -/
theorem goalBuilding_handleLaser64_rounding (defaultDirection : Laser.Direction)
    (gridX gridZ : Option ℤ) (blocksSpec : Option (List BlockSpec)) (originX originZ : ℤ)
    (direction : Laser.Direction) :
    ((2 : ℚ) - 2 < exampleTinyHeight ∧ exampleTinyHeight < (2 : ℚ) - 1) ∧
    Building.handleLaser64 defaultDirection
        (GoalBuilding { gridX := gridX, gridZ := gridZ, topY := some 2, blocksSpec := blocksSpec })
        { originX := originX, originZ := originZ, y := exampleTinyHeight, direction := direction } =
      none ∧
    ((1 : ℚ) - 1 < exampleTinyHeight ∧ exampleTinyHeight < (1 : ℚ)) ∧
    Building.handleLaser64 defaultDirection
        (GoalBuilding { gridX := gridX, gridZ := gridZ, topY := some 1, blocksSpec := blocksSpec })
        { originX := originX, originZ := originZ, y := exampleTinyHeight, direction := direction } =
      some .STOP ∧
    Building.handleLaser64 defaultDirection
        (GoalBuilding { gridX := gridX, gridZ := gridZ, topY := some 2, blocksSpec := blocksSpec })
        { originX := originX, originZ := originZ, y := 3 / 2, direction := direction } =
      some .INFINITY ∧
    Building.handleLaser64 defaultDirection
        (GoalBuilding { gridX := gridX, gridZ := gridZ, topY := some 2, blocksSpec := blocksSpec })
        { originX := originX, originZ := originZ, y := 1 / 2, direction := direction } =
      some .STOP ∧
    Building.handleLaser64 defaultDirection
        (GoalBuilding { gridX := gridX, gridZ := gridZ, topY := some 2, blocksSpec := blocksSpec })
        { originX := originX, originZ := originZ, y := 3, direction := direction } =
      some .CONTINUE := by
  have htiny : exampleTinyHeight = 1 / 2 ^ 60 := rfl
  have htop2 : (GoalBuilding
      { gridX := gridX, gridZ := gridZ, topY := some 2, blocksSpec := blocksSpec }).topY = 2 := rfl
  have htop1 : (GoalBuilding
      { gridX := gridX, gridZ := gridZ, topY := some 1, blocksSpec := blocksSpec }).topY = 1 := rfl
  have hn2 : Float64.sub (2 : ℚ) ((2 : ℕ) : ℚ) = .finite 0 := by
    simp [Float64.sub, Float64.round]
  have hn1 : Float64.sub (1 : ℚ) ((2 : ℕ) : ℚ) = .finite (-1) := by
    have h := Float64.sub_exact_of_dyadic 1 ((2 : ℕ) : ℚ) (-1) 0 (by norm_num) (by norm_num)
      (by norm_num)
    rw [h]; norm_num
  have hhalf : Float64.sub (2 : ℚ) (3 / 2) = .finite (1 / 2) := by
    have h := Float64.sub_exact_of_dyadic 2 (3 / 2) 1 1 (by norm_num) (by norm_num) (by norm_num)
    rw [h]; norm_num
  have hthreehalves : Float64.sub (2 : ℚ) (1 / 2) = .finite (3 / 2) := by
    have h := Float64.sub_exact_of_dyadic 2 (1 / 2) 3 1 (by norm_num) (by norm_num) (by norm_num)
    rw [h]; norm_num
  refine ⟨⟨?_, ?_⟩, ?_, ⟨?_, ?_⟩, ?_, ?_, ?_, ?_⟩
  · rw [htiny]; norm_num
  · rw [htiny]; norm_num
  · obtain ⟨_, hres⟩ := goalBuilding_handleLaser64_of_index defaultDirection
      { gridX := gridX, gridZ := gridZ, topY := some 2, blocksSpec := blocksSpec }
      { originX := originX, originZ := originZ, y := exampleTinyHeight, direction := direction }
      2 2 (by rw [htop2, htiny]; norm_num)
      (by rw [htop2, hn2, htiny]; simp only [Float64.le, decide_eq_false_iff_not, not_le]; norm_num)
      (by rw [htop2]; exact Float64.sub_two_tinyHeight) (by norm_num) (by norm_num)
    rw [hres]
    simp [arrayGet]
  · rw [htiny]; norm_num
  · rw [htiny]; norm_num
  · obtain ⟨_, hres⟩ := goalBuilding_handleLaser64_of_index defaultDirection
      { gridX := gridX, gridZ := gridZ, topY := some 1, blocksSpec := blocksSpec }
      { originX := originX, originZ := originZ, y := exampleTinyHeight, direction := direction }
      1 1 (by rw [htop1, htiny]; norm_num)
      (by rw [htop1, hn1, htiny]; simp only [Float64.le, decide_eq_false_iff_not, not_le]; norm_num)
      (by rw [htop1]; exact Float64.sub_one_tinyHeight) (by norm_num) (by norm_num)
    rw [hres]
    simp [arrayGet, BuildingBlock.handleLaser, StopBlock.handleLaser]
  · obtain ⟨_, hres⟩ := goalBuilding_handleLaser64_of_index defaultDirection
      { gridX := gridX, gridZ := gridZ, topY := some 2, blocksSpec := blocksSpec }
      { originX := originX, originZ := originZ, y := 3 / 2, direction := direction }
      0 (1 / 2) (by rw [htop2]; norm_num)
      (by rw [htop2, hn2]; simp only [Float64.le, decide_eq_false_iff_not, not_le]; norm_num)
      (by rw [htop2]; exact hhalf) (by norm_num) (by norm_num)
    rw [hres]
    simp [arrayGet, BuildingBlock.handleLaser, GoalBlock.handleLaser]
  · obtain ⟨_, hres⟩ := goalBuilding_handleLaser64_of_index defaultDirection
      { gridX := gridX, gridZ := gridZ, topY := some 2, blocksSpec := blocksSpec }
      { originX := originX, originZ := originZ, y := 1 / 2, direction := direction }
      1 (3 / 2) (by rw [htop2]; norm_num)
      (by rw [htop2, hn2]; simp only [Float64.le, decide_eq_false_iff_not, not_le]; norm_num)
      (by rw [htop2]; exact hthreehalves) (by norm_num) (by norm_num)
    rw [hres]
    simp [arrayGet, BuildingBlock.handleLaser, StopBlock.handleLaser]
  · unfold Building.handleLaser64
    rw [if_pos (Or.inl (by rw [htop2]; norm_num))]

/-- C11, as amended: `Building.handleLaser` forwards a segment to block `i`
(`i < blockCount`) if and only if the height passes the range test (`y < topY`, and not
`y <= topY - blockCount` as computed) and the computed difference `d = topY - y`
satisfies `i <= d < i + 1`. Whenever the two subtractions are exact this is
`topY - i - 1 < y <= topY - i` and `y < topY`: block `i` receives the heights of the
range that is open at its bottom face and closed at its top face (the very top of the
stack, `y = topY`, excepted). The result is then that block's result. -/
theorem handleLaser64_delegates_iff (defaultDirection : Laser.Direction) (b : Building)
    (seg : LaserSegmentLocation) (i : ℕ) (hi : i < b.blocks.length) :
    (Building.delegateIndex64 b seg = some (i : ℤ) ↔
      seg.y < b.topY ∧ Float64.le seg.y (Float64.sub b.topY (b.blocks.length : ℚ)) = false ∧
        ∃ d : ℚ, Float64.sub b.topY seg.y = .finite d ∧ (i : ℚ) ≤ d ∧ d < (i : ℚ) + 1) ∧
    (Float64.sub b.topY seg.y = .finite (b.topY - seg.y) →
      Float64.sub b.topY (b.blocks.length : ℚ) = .finite (b.topY - (b.blocks.length : ℚ)) →
      (Building.delegateIndex64 b seg = some (i : ℤ) ↔
        b.topY - (i : ℚ) - 1 < seg.y ∧ seg.y ≤ b.topY - (i : ℚ) ∧ seg.y < b.topY)) ∧
    (Building.delegateIndex64 b seg = some (i : ℤ) →
      Building.handleLaser64 defaultDirection b seg =
        some (BuildingBlock.handleLaser defaultDirection b (b.blocks.get ⟨i, hi⟩) seg)) := by
  refine ⟨?_, ?_, ?_⟩
  · have h := delegateIndex64_eq_some_iff b seg (i : ℤ)
    simpa using h
  · intro hy hn
    rw [(handleLaser64_eq_handleLaser_of_exact defaultDirection b seg hy hn).2]
    exact delegateIndex_eq_some_iff b seg i hi
  · intro hdel
    rw [handleLaser64_eq_of_delegateIndex64 defaultDirection b seg (i : ℤ) hdel]
    simp only [arrayGet_natCast b.blocks i hi, Option.map_some']

/-- Instance of the amended C11: the goal building with `topY = 2`, the height `1` and
block index 1; both subtractions are exact there. -/
theorem handleLaser64_delegates_iff_witness :
    ∃ hi : 1 < exampleGoalBuilding.blocks.length,
      Float64.sub exampleGoalBuilding.topY (exampleSegment 1).y =
        .finite (exampleGoalBuilding.topY - (exampleSegment 1).y) ∧
      Float64.sub exampleGoalBuilding.topY (exampleGoalBuilding.blocks.length : ℚ) =
        .finite (exampleGoalBuilding.topY - (exampleGoalBuilding.blocks.length : ℚ)) ∧
      (Building.delegateIndex64 exampleGoalBuilding (exampleSegment 1) = some ((1 : ℕ) : ℤ) ↔
        exampleGoalBuilding.topY - ((1 : ℕ) : ℚ) - 1 < (exampleSegment 1).y ∧
          (exampleSegment 1).y ≤ exampleGoalBuilding.topY - ((1 : ℕ) : ℚ) ∧
          (exampleSegment 1).y < exampleGoalBuilding.topY) ∧
      (Building.delegateIndex64 exampleGoalBuilding (exampleSegment 1) = some ((1 : ℕ) : ℤ) →
        Building.handleLaser64 .POSITIVE_X exampleGoalBuilding (exampleSegment 1) =
          some (BuildingBlock.handleLaser .POSITIVE_X exampleGoalBuilding
            (exampleGoalBuilding.blocks.get ⟨1, hi⟩) (exampleSegment 1))) :=
  have hlen : exampleGoalBuilding.blocks.length = 2 := by
    simp [exampleGoalBuilding, goalBuilding_blocks_eq]
  have hi : 1 < exampleGoalBuilding.blocks.length := by rw [hlen]; norm_num
  have hy : Float64.sub exampleGoalBuilding.topY (exampleSegment 1).y =
      .finite (exampleGoalBuilding.topY - (exampleSegment 1).y) :=
    Float64.sub_exact_of_dyadic _ _ 1 0
      (by norm_num [exampleGoalBuilding, exampleSegment, GoalBuilding, Building.initBuilding,
        initWithDefaults])
      (by norm_num) (by norm_num)
  have hn : Float64.sub exampleGoalBuilding.topY (exampleGoalBuilding.blocks.length : ℚ) =
      .finite (exampleGoalBuilding.topY - (exampleGoalBuilding.blocks.length : ℚ)) :=
    Float64.sub_exact_of_dyadic _ _ 0 0
      (by rw [hlen]; norm_num [exampleGoalBuilding, GoalBuilding, Building.initBuilding,
        initWithDefaults])
      (by norm_num) (by norm_num)
  have h := handleLaser64_delegates_iff .POSITIVE_X exampleGoalBuilding (exampleSegment 1) 1 hi
  ⟨hi, hy, hn, h.2.1 hy hn, h.2.2⟩

/-! ## Double precision: the win result -/

/-- C19: the win result is never produced without a goal block being hit: for every
building made of stop, goal, hole and mirror blocks and every segment,
`Building.handleLaser` returns `INFINITY` if and only if the height passes the range
test and the block at the index the code computes, `Math.floor(topY - y)`, is a goal
block; when `topY - blockCount` is computed exactly the range test is
`topY - blockCount < y < topY`. A building that contains no goal block never returns
`INFINITY`. -/
theorem handleLaser64_infinity_iff_goalBlock (defaultDirection : Laser.Direction) (b : Building)
    (seg : LaserSegmentLocation) :
    (Building.handleLaser64 defaultDirection b seg = some .INFINITY ↔
      seg.y < b.topY ∧ Float64.le seg.y (Float64.sub b.topY (b.blocks.length : ℚ)) = false ∧
        ∃ (k : ℤ) (blk : BuildingBlock),
          Float64.floorIndex (Float64.sub b.topY seg.y) = some k ∧
          arrayGet b.blocks k = some blk ∧ blk.kind = .GoalBlock) ∧
    (Float64.sub b.topY (b.blocks.length : ℚ) = .finite (b.topY - (b.blocks.length : ℚ)) →
      (Building.handleLaser64 defaultDirection b seg = some .INFINITY ↔
        b.topY - (b.blocks.length : ℚ) < seg.y ∧ seg.y < b.topY ∧
          ∃ (k : ℤ) (blk : BuildingBlock),
            Float64.floorIndex (Float64.sub b.topY seg.y) = some k ∧
            arrayGet b.blocks k = some blk ∧ blk.kind = .GoalBlock)) ∧
    ((∀ blk ∈ b.blocks, blk.kind ≠ .GoalBlock) →
      Building.handleLaser64 defaultDirection b seg ≠ some .INFINITY) := by
  have main : Building.handleLaser64 defaultDirection b seg = some .INFINITY ↔
      seg.y < b.topY ∧ Float64.le seg.y (Float64.sub b.topY (b.blocks.length : ℚ)) = false ∧
        ∃ (k : ℤ) (blk : BuildingBlock),
          Float64.floorIndex (Float64.sub b.topY seg.y) = some k ∧
          arrayGet b.blocks k = some blk ∧ blk.kind = .GoalBlock := by
    unfold Building.handleLaser64
    split_ifs with hguard
    · simp only [Option.some.injEq, reduceCtorEq, false_iff, not_and]
      intro h1 h2
      rcases hguard with h | h
      · exact absurd h1 (not_lt.mpr h)
      · rw [h] at h2
        exact absurd h2 (by simp)
    · push_neg at hguard
      obtain ⟨hlt, hle⟩ := hguard
      have hle2 : Float64.le seg.y (Float64.sub b.topY (b.blocks.length : ℚ)) = false := by
        simpa using hle
      cases hidx : Float64.floorIndex (Float64.sub b.topY seg.y) with
      | none =>
        simp only [hidx]
        simp
      | some k =>
        cases hget : arrayGet b.blocks k with
        | none =>
          simp only [hidx, hget, Option.map_none', reduceCtorEq, false_iff, not_and, not_exists]
          intro _ _ k2 blk hk hb
          rw [← Option.some.inj hk, hget] at hb
          exact absurd hb (by simp)
        | some blk =>
          simp only [hidx, hget, Option.map_some', Option.some.injEq,
            blockHandleLaser_infinity_iff]
          constructor
          · intro hkind
            exact ⟨hlt, hle2, k, blk, rfl, hget, hkind⟩
          · rintro ⟨_, _, k2, blk2, hk, hb, hkind⟩
            rw [← hk, hget] at hb
            rw [Option.some.inj hb]
            exact hkind
  refine ⟨main, ?_, ?_⟩
  · intro hn
    rw [main, hn]
    simp only [Float64.le, decide_eq_false_iff_not, not_le]
    constructor
    · rintro ⟨h1, h2, h3⟩
      exact ⟨h2, h1, h3⟩
    · rintro ⟨h1, h2, h3⟩
      exact ⟨h2, h1, h3⟩
  · intro hno hinf
    obtain ⟨_, _, k, blk, _, hget, hkind⟩ := main.mp hinf
    have hmem : blk ∈ b.blocks := by
      unfold arrayGet at hget
      split_ifs at hget
      exact List.getElem?_mem hget
    exact hno blk hmem hkind

/-- Instance of C19: for the stack `[StopBlock, StopBlock, GoalBlock]` with `topY = 2`
the height `2 ^ (-60)` is forwarded to index `Math.floor(2.0) = 2`, the goal block, and
`INFINITY` is returned; a building whose only block is a stop block contains no goal
block and does not return `INFINITY`. -/
theorem handleLaser64_infinity_iff_goalBlock_witness :
    Building.handleLaser64 .POSITIVE_Z exampleTowerBuilding (exampleSegment exampleTinyHeight) =
      some .INFINITY ∧
    (∀ blk ∈ exampleStopBuilding.blocks, blk.kind ≠ .GoalBlock) ∧
    Building.handleLaser64 .POSITIVE_Z exampleStopBuilding (exampleSegment (3 / 2)) ≠
      some .INFINITY :=
  have htiny : exampleTinyHeight = 1 / 2 ^ 60 := rfl
  have hblocks : exampleTowerBuilding.blocks =
      [ { kind := .StopBlock, topY := 2, position := { x := 0, y := 0, z := 0 }, stationary := true },
        { kind := .StopBlock, topY := 2, position := { x := 0, y := 0, z := 0 }, stationary := true },
        { kind := .GoalBlock, topY := 2, position := { x := 0, y := 0, z := 0 }, stationary := true } ] := by
    simp [exampleTowerBuilding, Building.initBuilding, initWithDefaults, BlockSpec.construct,
      BuildingBlock.initBuildingBlock]
  have hn : Float64.sub (2 : ℚ) ((3 : ℕ) : ℚ) = .finite (-1) := by
    have h := Float64.sub_exact_of_dyadic 2 ((3 : ℕ) : ℚ) (-1) 0 (by norm_num) (by norm_num)
      (by norm_num)
    rw [h]; norm_num
  have htower : Building.handleLaser64 .POSITIVE_Z exampleTowerBuilding
      (exampleSegment exampleTinyHeight) = some .INFINITY :=
    (handleLaser64_infinity_iff_goalBlock .POSITIVE_Z exampleTowerBuilding
      (exampleSegment exampleTinyHeight)).1.mpr
      ⟨by
          show exampleTinyHeight < (2 : ℚ)
          rw [htiny]; norm_num,
        by
          rw [hblocks]
          show Float64.le exampleTinyHeight (Float64.sub (2 : ℚ) ((3 : ℕ) : ℚ)) = false
          rw [hn, htiny]
          simp only [Float64.le, decide_eq_false_iff_not, not_le]
          norm_num,
        2, _,
        by
          show Float64.floorIndex (Float64.sub (2 : ℚ) exampleTinyHeight) = some 2
          rw [Float64.sub_two_tinyHeight]
          simp [Float64.floorIndex],
        by rw [hblocks]; rfl,
        rfl⟩
  have hno : ∀ blk ∈ exampleStopBuilding.blocks, blk.kind ≠ .GoalBlock := by
    intro blk hmem
    simp [exampleStopBuilding, Building.initBuilding, initWithDefaults, BlockSpec.construct,
      BuildingBlock.initBuildingBlock] at hmem
    rw [hmem]
    simp
  ⟨htower, hno, (handleLaser64_infinity_iff_goalBlock .POSITIVE_Z exampleStopBuilding
    (exampleSegment (3 / 2))).2.2 hno⟩

end Lasertown
